import Mathlib

/-!
Verification development for the docsExtractor repository.

The program (src/index.js, src/chatGPT.js) fetches a list of URLs, converts
each HTML body to markdown, sends the markdown to a remote cleaning API,
writes raw and clean files, and accumulates a run report.

The embedding below translates the code into Lean:

* external collaborators (the HTTP GET performed by axios, the turndown
  HTML-to-markdown conversion, the remote GPT cleaning call, and the two
  `fs.writeFileSync` calls of the persist stage) are modelled per URL as a
  `UrlEnv` record of outcomes: each fallible call is an `Except String`
  value (`error` = the call threw, carrying `error.message`), the pure
  conversion is a total function;
* the file system is a finite association list from paths to contents;
* `extractToMarkdown`, the per-URL pipeline, follows src/index.js lines
  57-107 stage by stage; `runLoop`/`processLinks` follow the runner loop of
  lines 115-176; `mainRun` adds the fatal startup checks (missing API key,
  missing/unparsable/non-array/empty URL list);
* JavaScript number semantics of the compression figure
  `(1 - clean/raw) * 100).toFixed(1)` are modelled exactly over `ℚ`
  extended with `Infinity`, `-Infinity` and `NaN` (`JNum`); binary
  floating-point rounding error is out of scope;
* wall-clock timestamp fields of the report are omitted (they record the
  current time, which is environment input with no bearing on the claims).
-/

namespace DocsExtractor

/-! ## URL parsing and file-name derivation (src/index.js lines 45-50) -/

/-- Result of `new URL(url)` as used by the code: only the `hostname` and
`pathname` properties are read. -/
structure URLRec where
  hostname : String
  pathname : String
deriving DecidableEq, Repr

/-- Scan a character list for the first occurrence of `"://"`; return the
characters before it and the characters after it, or `none` when the
marker does not occur. -/
def splitSchemeAux : List Char → Option (List Char × List Char)
  | [] => none
  | ':' :: '/' :: '/' :: rest => some ([], rest)
  | c :: rest => (splitSchemeAux rest).map (fun p => (c :: p.1, p.2))

/-- Model of the platform WHATWG URL parser invoked by the code as
`new URL(url)`, restricted to the absolute `scheme://host[/path...]`
fragment actually exercised here: a non-empty all-alphabetic scheme,
`"://"`, a non-empty host, and an optional path; URLs with ports, userinfo,
queries or fragments, and scheme-only forms such as `mailto:x`, are outside
the modelled fragment and are mapped to `none`. A `none` result stands for
the `TypeError` that `new URL` throws on invalid input. For special schemes
the parser normalizes an absent path to `"/"`. -/
def parseURL (s : String) : Option URLRec :=
  match splitSchemeAux s.data with
  | none => none
  | some (schemeCs, rest) =>
    if schemeCs ≠ [] ∧ schemeCs.all Char.isAlpha then
      let hostCs := rest.takeWhile (fun c => c ≠ '/')
      let pathCs := rest.dropWhile (fun c => c ≠ '/')
      if hostCs ≠ [] then
        some { hostname := ⟨hostCs⟩
               pathname := if pathCs = [] then "/" else ⟨pathCs⟩ }
      else none
    else none

/-- Character class kept verbatim by the sanitizer regex
`[^a-zA-Z0-9-_]` of `generateFileName`. -/
def isAllowedChar (c : Char) : Bool :=
  (decide (97 ≤ c.toNat) && decide (c.toNat ≤ 122)) ||
  (decide (65 ≤ c.toNat) && decide (c.toNat ≤ 90)) ||
  (decide (48 ≤ c.toNat) && decide (c.toNat ≤ 57)) ||
  c == '-' || c == '_'

/-- One replacement step of `.replace(/[^a-zA-Z0-9-_]/g, '_')`. -/
def sanitizeChar (c : Char) : Char :=
  if isAllowedChar c then c else '_'

/-- Effect of `.replace(/\/+$/, '')`: remove every trailing slash. -/
def stripTrailingSlashes (cs : List Char) : List Char :=
  (cs.reverse.dropWhile (fun c => c == '/')).reverse

/-- `generateFileName` (src/index.js lines 45-50): parse the URL (throwing,
i.e. `none`, on invalid input), concatenate the hostname with the pathname
stripped of trailing slashes and sanitized, and append `"_index"` when the
result is empty or equals the bare hostname. -/
def generateFileName (url : String) : Option String :=
  match parseURL url with
  | none => none
  | some u =>
    let fileName : String :=
      u.hostname ++ ⟨(stripTrailingSlashes u.pathname.data).map sanitizeChar⟩
    some (if fileName = "" ∨ fileName = u.hostname then fileName ++ "_index"
          else fileName)

/-- The file-name derivation exactly as the specification words it
(spec.md §3, "FileName derivation"): `hostname + sanitized(path)` where
sanitization strips trailing slashes and replaces every character outside
`[A-Za-z0-9-_]` with `_`; if the result is empty or equals the bare
hostname, a literal `_index` suffix is appended. Stated on the parsed
hostname/pathname pair, to be compared with `generateFileName`. -/
def fileNameSpec (hostname pathname : String) : String :=
  let base : String :=
    hostname ++ ⟨(stripTrailingSlashes pathname.data).map sanitizeChar⟩
  if base = "" ∨ base = hostname then base ++ "_index" else base

/-! ## JavaScript number model for the compression figure
(src/index.js line 156: `((1 - clean.length / raw.length) * 100).toFixed(1)`) -/

/-- A JavaScript number as it arises in the compression computation: an
exact rational, positive or negative infinity, or `NaN`. Binary float
rounding is not modelled; the values reached here are exact. -/
inductive JNum
  | fin (q : ℚ)
  | inf
  | ninf
  | nan
deriving DecidableEq, Repr

/-- JavaScript division `a / b` of the two non-negative lengths: division
by zero yields `Infinity` (or `NaN` for `0 / 0`), otherwise the exact
quotient. -/
def jdiv (a b : ℕ) : JNum :=
  if b = 0 then (if a = 0 then JNum.nan else JNum.inf)
  else JNum.fin ((a : ℚ) / (b : ℚ))

/-- JavaScript evaluation of `(1 - x) * 100` on the extended numbers. -/
def jshift : JNum → JNum
  | JNum.fin q => JNum.fin ((1 - q) * 100)
  | JNum.inf => JNum.ninf
  | JNum.ninf => JNum.inf
  | JNum.nan => JNum.nan

/-- The number `(1 - cleanSize / rawSize) * 100` computed by the runner for
a success entry. -/
def jcompression (cleanSize rawSize : ℕ) : JNum :=
  jshift (jdiv cleanSize rawSize)

/-- Decimal rendering of `n / 10` with one digit after the point, as
`toFixed(1)` renders its rounded scaled integer. -/
def renderFixed1 (n : ℤ) : String :=
  (if n < 0 then "-" else "") ++ toString (n.natAbs / 10) ++ "." ++
    toString (n.natAbs % 10)

/-- Model of `Number.prototype.toFixed(1)` on a finite value: per the
ECMAScript definition, the integer `n` with `n / 10` closest to the value
is chosen, ties resolved to the larger `n`, which is `⌊x * 10 + 1/2⌋`. -/
def toFixed1 (q : ℚ) : String :=
  renderFixed1 ⌊q * 10 + 1 / 2⌋

/-- `toFixed(1)` on the extended numbers: on non-finite values `toFixed`
returns the plain `ToString` rendering. -/
def jnumToFixed1 : JNum → String
  | JNum.fin q => toFixed1 q
  | JNum.inf => "Infinity"
  | JNum.ninf => "-Infinity"
  | JNum.nan => "NaN"

/-- The compression string recorded in a success report entry
(src/index.js line 156). -/
def compressionString (cleanSize rawSize : ℕ) : String :=
  jnumToFixed1 (jcompression cleanSize rawSize) ++ "%"

/-! ## File system and external collaborators -/

/-- File system model: an association list from absolute paths to file
contents. -/
abbrev FS := List (String × String)

/-- `fs.writeFileSync`, unconditionally overwriting any existing file. -/
def fsWrite (fs : FS) (p c : String) : FS :=
  (p, c) :: (List.filter (fun e => e.1 ≠ p) fs)

/-- Content of the file at `p`, when present. -/
def fsRead (fs : FS) (p : String) : Option String :=
  (List.find? (fun e => e.1 = p) fs).map Prod.snd

/-- Behaviour of the external collaborators for one URL. `fetch` is the
axios HTTP GET (an `error` outcome is the thrown error carrying
`error.message`, covering timeouts, connection failures and non-2xx
statuses); `convert` is the pure, total turndown HTML-to-markdown
conversion; `clean` is `chatGPT.organizeMarkdown` applied to the raw
markdown (an `error` outcome is the rethrown API error); `writeRaw` and
`writeClean` tell whether each of the two `fs.writeFileSync` calls of the
persist stage throws (a throwing write leaves no file behind). -/
structure UrlEnv where
  fetch : Except String String
  convert : String → String
  clean : String → Except String String
  writeRaw : Except String Unit
  writeClean : Except String Unit

/-- `path.join(__dirname, 'output', 'raw')`, relative to the module
directory. -/
def rawDir : String := "output/raw"

/-- `path.join(__dirname, 'output', 'clean')`, relative to the module
directory. -/
def cleanDir : String := "output/clean"

/-- Successful return value of `extractToMarkdown`
(src/index.js lines 96-101). -/
structure ExtractOk where
  clean : String
  raw : String
  rawPath : String
  cleanPath : String
  fileName : String
deriving DecidableEq, Repr

/-- Message of the `TypeError` thrown by `new URL` on invalid input. -/
def invalidUrlMsg : String := "Invalid URL"

instance exceptDecEq {ε α : Type} [DecidableEq ε] [DecidableEq α] :
    DecidableEq (Except ε α) := fun a b =>
  match a, b with
  | Except.ok x, Except.ok y =>
    if h : x = y then isTrue (by rw [h])
    else isFalse (fun he => by cases he; exact h rfl)
  | Except.error x, Except.error y =>
    if h : x = y then isTrue (by rw [h])
    else isFalse (fun he => by cases he; exact h rfl)
  | Except.ok _, Except.error _ => isFalse (fun he => by cases he)
  | Except.error _, Except.ok _ => isFalse (fun he => by cases he)

/-- `extractToMarkdown` (src/index.js lines 57-107): fetch, convert,
remote-clean, then persist (raw file first, clean file second); any thrown
error is rethrown to the caller. Returns the result (or the error message)
together with the file system after the call. -/
def extractToMarkdown (env : UrlEnv) (url : String) (fs : FS) :
    Except String ExtractOk × FS :=
  match env.fetch with
  | Except.error e => (Except.error e, fs)
  | Except.ok html =>
    let rawMarkdown := env.convert html
    match env.clean rawMarkdown with
    | Except.error e => (Except.error e, fs)
    | Except.ok cleanMarkdown =>
      match generateFileName url with
      | none => (Except.error invalidUrlMsg, fs)
      | some fileName =>
        let rawPath := rawDir ++ "/" ++ fileName ++ ".md"
        let cleanPath := cleanDir ++ "/" ++ fileName ++ ".md"
        match env.writeRaw with
        | Except.error e => (Except.error e, fs)
        | Except.ok _ =>
          let fs1 := fsWrite fs rawPath rawMarkdown
          match env.writeClean with
          | Except.error e => (Except.error e, fs1)
          | Except.ok _ =>
            (Except.ok { clean := cleanMarkdown, raw := rawMarkdown,
                         rawPath := rawPath, cleanPath := cleanPath,
                         fileName := fileName },
             fsWrite fs1 cleanPath cleanMarkdown)

/-- Value component of `extractToMarkdown`; the outcome does not depend on
the prior file-system state, only the state component does. -/
def extractResult (env : UrlEnv) (url : String) : Except String ExtractOk :=
  match env.fetch with
  | Except.error e => Except.error e
  | Except.ok html =>
    let rawMarkdown := env.convert html
    match env.clean rawMarkdown with
    | Except.error e => Except.error e
    | Except.ok cleanMarkdown =>
      match generateFileName url with
      | none => Except.error invalidUrlMsg
      | some fileName =>
        match env.writeRaw with
        | Except.error e => Except.error e
        | Except.ok _ =>
          match env.writeClean with
          | Except.error e => Except.error e
          | Except.ok _ =>
            Except.ok { clean := cleanMarkdown, raw := rawMarkdown,
                        rawPath := rawDir ++ "/" ++ fileName ++ ".md",
                        cleanPath := cleanDir ++ "/" ++ fileName ++ ".md",
                        fileName := fileName }

/-! ## Pipeline runner (src/index.js lines 113-207) -/

/-- One entry of `report.details`: the success object or the error object
pushed by the runner loop (src/index.js lines 149-158 and 164-169). The
wall-clock `timestamp` of the error object is omitted. -/
inductive Detail
  | success (url fileName : String) (cleanSize rawSize : ℕ)
      (compression : String) (rawPath cleanPath : String)
  | error (url : String) (errMsg : String)
deriving DecidableEq, Repr

/-- The `url` property present on both kinds of entry. -/
def Detail.url : Detail → String
  | Detail.success u _ _ _ _ _ _ => u
  | Detail.error u _ => u

/-- The run report (src/index.js lines 137-144); the wall-clock
`timestamp` and the constant `directories` record are omitted. -/
structure Report where
  total : ℕ
  successes : ℕ
  errors : ℕ
  details : List Detail
deriving DecidableEq, Repr

/-- Report as created before the loop: `total` is the length of the URL
list, both counters are zero, no details. -/
def initReport (urls : List String) : Report :=
  { total := urls.length, successes := 0, errors := 0, details := [] }

/-- Success branch of the loop body: increment `successes` and push the
success entry with sizes, compression and paths. -/
def pushSuccess (r : Report) (url : String) (okv : ExtractOk) : Report :=
  { r with
    successes := r.successes + 1
    details := r.details ++
      [Detail.success url okv.fileName okv.clean.length okv.raw.length
        (compressionString okv.clean.length okv.raw.length)
        okv.rawPath okv.cleanPath] }

/-- Catch branch of the loop body: increment `errors` and push the error
entry carrying `error.message`. -/
def pushError (r : Report) (url : String) (msg : String) : Report :=
  { r with
    errors := r.errors + 1
    details := r.details ++ [Detail.error url msg] }

/-- One iteration of the `for (const url of links)` loop, acting on the
accumulator (report, file system, number of executed 1000 ms delays). On
success the loop also executes `await new Promise(resolve =>
setTimeout(resolve, 1000))`, the last statement of the `try` block; the
catch branch runs no delay. -/
def stepFn (env : String → UrlEnv) (acc : Report × FS × ℕ) (url : String) :
    Report × FS × ℕ :=
  match extractToMarkdown (env url) url acc.2.1 with
  | (Except.ok okv, fs') => (pushSuccess acc.1 url okv, fs', acc.2.2 + 1)
  | (Except.error e, fs') => (pushError acc.1 url e, fs', acc.2.2)

/-- The whole loop over the URL list. -/
def runLoop (env : String → UrlEnv) :
    List String → Report × FS × ℕ → Report × FS × ℕ
  | [], acc => acc
  | url :: rest, acc => runLoop env rest (stepFn env acc url)

/-- `processLinks` after the fatal startup checks: run the loop over the
URL list starting from the fresh report, returning the final report, file
system, and delay count. -/
def processLinks (env : String → UrlEnv) (urls : List String) (fs : FS) :
    Report × FS × ℕ :=
  runLoop env urls (initReport urls, fs, 0)

/-- The report entry produced for one URL, as a function of that URL's
collaborator behaviour alone. -/
def detailOf (env : UrlEnv) (url : String) : Detail :=
  match extractResult env url with
  | Except.ok okv =>
      Detail.success url okv.fileName okv.clean.length okv.raw.length
        (compressionString okv.clean.length okv.raw.length)
        okv.rawPath okv.cleanPath
  | Except.error e => Detail.error url e

/-- Outcome of the URL-list load `JSON.parse(fs.readFileSync(...))`
(src/index.js lines 119-129): the read or parse threw, or the parsed JSON
is not an array, or it is an array of URLs (possibly empty). -/
inductive LinksInput
  | loadError (msg : String)
  | notArray
  | array (urls : List String)
deriving DecidableEq

/-- Observable outcome of the process: its exit status, whether the report
files were written, and the report value when one was produced. -/
structure RunOutcome where
  exitCode : ℕ
  reportWritten : Bool
  report : Option Report
deriving DecidableEq

/-- Whole-process model: the `OPENAI_API_KEY` presence check at module
load (src/index.js lines 15-18, `process.exit(1)` when absent, before the
URL list is touched), then the URL-list checks inside `processLinks`
(`process.exit(1)` on read/parse failure and on non-array or empty list),
then the loop and the final report writes (the report serialization and
its two `writeFileSync` calls are assumed not to throw). A run that
reaches the end exits with status 0. -/
def mainRun (apiKey : Option String) (input : LinksInput)
    (env : String → UrlEnv) (fs : FS) : RunOutcome :=
  match apiKey with
  | none => { exitCode := 1, reportWritten := false, report := none }
  | some _ =>
    match input with
    | LinksInput.loadError _ =>
        { exitCode := 1, reportWritten := false, report := none }
    | LinksInput.notArray =>
        { exitCode := 1, reportWritten := false, report := none }
    | LinksInput.array urls =>
        if urls.length = 0 then
          { exitCode := 1, reportWritten := false, report := none }
        else
          { exitCode := 0, reportWritten := true
            report := some (processLinks env urls fs).1 }

/-! ## Concrete collaborator behaviours used as witnesses -/

/-- Every external call succeeds; the conversion is the identity. -/
def envOk : UrlEnv :=
  { fetch := Except.ok "<h1>T</h1>"
    convert := fun s => s
    clean := fun s => Except.ok s
    writeRaw := Except.ok ()
    writeClean := Except.ok () }

/-- The HTTP GET itself throws. -/
def envFetchFailU : UrlEnv :=
  { fetch := Except.error "connect ECONNREFUSED"
    convert := fun s => s
    clean := fun s => Except.ok s
    writeRaw := Except.ok ()
    writeClean := Except.ok () }

/-- Fetch and conversion succeed, the remote cleaning call fails with an
auth error. -/
def envAuthFail : UrlEnv :=
  { fetch := Except.ok "<html><body>x</body></html>"
    convert := fun _ => "x"
    clean := fun _ => Except.error "Incorrect API key provided"
    writeRaw := Except.ok ()
    writeClean := Except.ok () }

/-- Everything up to the raw file write succeeds; the clean file write
throws. -/
def envCleanWriteFail : UrlEnv :=
  { fetch := Except.ok "<p>hi</p>"
    convert := fun _ => "hi"
    clean := fun _ => Except.ok "HI"
    writeRaw := Except.ok ()
    writeClean := Except.error "ENOSPC: no space left on device" }

/-- A page whose conversion yields an empty raw markdown; the remote clean
still succeeds with non-empty output. -/
def envZeroRaw : UrlEnv :=
  { fetch := Except.ok "<div></div>"
    convert := fun _ => ""
    clean := fun _ => Except.ok "c"
    writeRaw := Except.ok ()
    writeClean := Except.ok () }

/-! ## Loop lemmas -/

theorem extract_fst (env : UrlEnv) (url : String) (fs : FS) :
    (extractToMarkdown env url fs).1 = extractResult env url := by
  unfold extractToMarkdown extractResult
  cases env.fetch with
  | error e => rfl
  | ok html =>
    dsimp only
    cases env.clean (env.convert html) with
    | error e => rfl
    | ok cm =>
      dsimp only
      cases generateFileName url with
      | none => rfl
      | some fn =>
        dsimp only
        cases env.writeRaw with
        | error e => rfl
        | ok u =>
          dsimp only
          cases env.writeClean with
          | error e => rfl
          | ok u2 => rfl

theorem stepFn_cases (env : String → UrlEnv) (acc : Report × FS × ℕ)
    (url : String) :
    (stepFn env acc url).1.total = acc.1.total ∧
    (stepFn env acc url).1.details =
      acc.1.details ++ [detailOf (env url) url] ∧
    (((stepFn env acc url).1.successes = acc.1.successes + 1 ∧
      (stepFn env acc url).1.errors = acc.1.errors ∧
      (stepFn env acc url).2.2 = acc.2.2 + 1) ∨
     ((stepFn env acc url).1.successes = acc.1.successes ∧
      (stepFn env acc url).1.errors = acc.1.errors + 1 ∧
      (stepFn env acc url).2.2 = acc.2.2)) := by
  have h := extract_fst (env url) url acc.2.1
  unfold stepFn detailOf
  rcases hex : extractToMarkdown (env url) url acc.2.1 with ⟨res, fs'⟩
  rw [hex] at h
  rw [← h]
  cases res with
  | ok okv => simp [pushSuccess]
  | error e => simp [pushError]

theorem runLoop_invariants (env : String → UrlEnv) :
    ∀ (urls : List String) (acc : Report × FS × ℕ),
      (runLoop env urls acc).1.total = acc.1.total ∧
      (runLoop env urls acc).1.successes + (runLoop env urls acc).1.errors =
        acc.1.successes + acc.1.errors + urls.length ∧
      (runLoop env urls acc).2.2 + acc.1.successes =
        (runLoop env urls acc).1.successes + acc.2.2
  | [], acc => by
      simp only [runLoop, List.length_nil]
      exact ⟨trivial, by omega, by omega⟩
  | url :: rest, acc => by
      have hstep := stepFn_cases env acc url
      have ih := runLoop_invariants env rest (stepFn env acc url)
      rw [runLoop]
      rcases ih with ⟨ih1, ih2, ih3⟩
      rcases hstep with ⟨h1, _h2, h3 | h3⟩
      all_goals simp only [List.length_cons]
      all_goals exact ⟨by omega, by omega, by omega⟩

theorem runLoop_details (env : String → UrlEnv) :
    ∀ (urls : List String) (acc : Report × FS × ℕ),
      (runLoop env urls acc).1.details =
        acc.1.details ++ urls.map (fun u => detailOf (env u) u)
  | [], acc => by simp [runLoop]
  | url :: rest, acc => by
      rw [runLoop, runLoop_details env rest, (stepFn_cases env acc url).2.1]
      simp

theorem detailOf_url (env : UrlEnv) (url : String) :
    (detailOf env url).url = url := by
  unfold detailOf
  cases extractResult env url with
  | ok okv => rfl
  | error e => rfl

/-! ## Claims -/

/-- C1, counterexample: for the single-URL list `["https://a.test/x"]`
whose processing fails (the fetch throws), the runner performs zero 1000 ms
delays, not one delay per URL as claimed — the delay statement is the last
statement of the `try` block and is skipped by the catch branch. -/
theorem delay_not_per_url :
    ¬ ((processLinks (fun _ => envFetchFailU) ["https://a.test/x"] []).2.2 =
        (["https://a.test/x"] : List String).length) := by
  decide

/-- C1, amended: the 1000 ms delay is executed once after each
successfully processed URL (including the final one when it succeeds) and
not after a URL whose processing failed, so at the end of the run the
number of executed delays equals the success counter, not the number of
URLs. -/
theorem delay_count (env : String → UrlEnv) (urls : List String) (fs : FS) :
    (processLinks env urls fs).2.2 = (processLinks env urls fs).1.successes := by
  have h := (runLoop_invariants env urls (initReport urls, fs, 0)).2.2
  simp only [initReport] at h
  simpa [processLinks, initReport] using h

/-- C2, counterexample: with fetch, convert, remote-clean and the raw file
write all succeeding but the clean file write throwing, the pipeline for
`https://example.com/docs/page` fails, yet the raw markdown file remains
on disk while the clean file was never written — a partial effect of the
failed pipeline. -/
theorem raw_without_clean :
    (extractToMarkdown envCleanWriteFail "https://example.com/docs/page" []).1 =
      Except.error "ENOSPC: no space left on device" ∧
    fsRead (extractToMarkdown envCleanWriteFail "https://example.com/docs/page" []).2
        "output/raw/example.com_docs_page.md" = some "hi" ∧
    fsRead (extractToMarkdown envCleanWriteFail "https://example.com/docs/page" []).2
        "output/clean/example.com_docs_page.md" = none := by
  decide

/-- C2, amended: the four stages run strictly in order and no later stage
runs after a failure; a failure in fetch, convert, or remote-clean leaves
the file system untouched for that URL; but within the persist stage the
raw file is written before the clean file, so when the clean file write
fails the raw markdown file at `<rawDir>/<fileName>.md` remains even
though the clean file write did not complete. -/
theorem extract_stage_isolation (env : UrlEnv) (url : String) (fs : FS) :
    (∀ e, env.fetch = Except.error e →
      extractToMarkdown env url fs = (Except.error e, fs)) ∧
    (∀ html e, env.fetch = Except.ok html →
      env.clean (env.convert html) = Except.error e →
      extractToMarkdown env url fs = (Except.error e, fs)) ∧
    (∀ html cm fn e, env.fetch = Except.ok html →
      env.clean (env.convert html) = Except.ok cm →
      generateFileName url = some fn →
      env.writeRaw = Except.ok () →
      env.writeClean = Except.error e →
      extractToMarkdown env url fs =
        (Except.error e,
         fsWrite fs (rawDir ++ "/" ++ fn ++ ".md") (env.convert html))) := by
  refine ⟨?_, ?_, ?_⟩
  · intro e he
    unfold extractToMarkdown
    rw [he]
  · intro html e hf hc
    unfold extractToMarkdown
    rw [hf]
    dsimp only
    rw [hc]
  · intro html cm fn e hf hc hg hw hw2
    unfold extractToMarkdown
    rw [hf]
    dsimp only
    rw [hc, hg, hw]
    dsimp only
    rw [hw2]

/-- Witness for C2's amended theorem at three concrete behaviours: a
throwing fetch, a throwing remote clean, and a throwing clean file write. -/
theorem extract_stage_isolation_witness :
    extractToMarkdown envFetchFailU "https://example.com/" [] =
      (Except.error "connect ECONNREFUSED", []) ∧
    extractToMarkdown envAuthFail "https://example.com/" [] =
      (Except.error "Incorrect API key provided", []) ∧
    extractToMarkdown envCleanWriteFail "https://example.com/docs/page" [] =
      (Except.error "ENOSPC: no space left on device",
       fsWrite [] ("output/raw" ++ "/" ++ "example.com_docs_page" ++ ".md")
         (envCleanWriteFail.convert "<p>hi</p>")) :=
  ⟨(extract_stage_isolation envFetchFailU "https://example.com/" []).1
      "connect ECONNREFUSED" rfl,
   (extract_stage_isolation envAuthFail "https://example.com/" []).2.1
      "<html><body>x</body></html>" "Incorrect API key provided" rfl rfl,
   (extract_stage_isolation envCleanWriteFail "https://example.com/docs/page" []).2.2
      "<p>hi</p>" "HI" "example.com_docs_page" "ENOSPC: no space left on device"
      rfl rfl (by decide) rfl rfl⟩

/-- C3: when fetch and convert succeed but the remote-clean call fails for
the only URL of the list, the final report has `total = 1`,
`successes = 0`, `errors = 1`, its single detail entry is the error entry
carrying the remote error message, the file system is unchanged (persist
never ran), and no delay was executed. -/
theorem clean_failure_report (env : UrlEnv) (url html msg : String) (fs : FS)
    (hf : env.fetch = Except.ok html)
    (hc : env.clean (env.convert html) = Except.error msg) :
    processLinks (fun _ => env) [url] fs =
      ({ total := 1, successes := 0, errors := 1,
         details := [Detail.error url msg] }, fs, 0) := by
  have hx : extractToMarkdown env url fs = (Except.error msg, fs) :=
    (extract_stage_isolation env url fs).2.1 html msg hf hc
  simp [processLinks, runLoop, stepFn, hx, pushError, initReport]

/-- Witness for C3 at the concrete auth-failure behaviour of
`envAuthFail` and the URL list `["https://a.test/x"]`. -/
theorem clean_failure_report_witness :
    processLinks (fun _ => envAuthFail) ["https://a.test/x"] [] =
      ({ total := 1, successes := 0, errors := 1,
         details := [Detail.error "https://a.test/x"
                       "Incorrect API key provided"] }, [], 0) :=
  clean_failure_report envAuthFail "https://a.test/x"
    "<html><body>x</body></html>" "Incorrect API key provided" [] rfl rfl

theorem initReport_total (urls : List String) :
    (initReport urls).total = urls.length := rfl

theorem initReport_successes (urls : List String) :
    (initReport urls).successes = 0 := rfl

theorem initReport_errors (urls : List String) :
    (initReport urls).errors = 0 := rfl

/-- C4: for every non-empty URL list the final report satisfies
`total = urls.length` (the field is set before the loop and never
modified) and `successes + errors = total` (each iteration increments
exactly one of the two counters). -/
theorem report_totals (env : String → UrlEnv) (urls : List String) (fs : FS)
    (_h : urls ≠ []) :
    (processLinks env urls fs).1.total = urls.length ∧
    (processLinks env urls fs).1.successes +
        (processLinks env urls fs).1.errors =
      (processLinks env urls fs).1.total := by
  have hi := runLoop_invariants env urls (initReport urls, fs, 0)
  have h1 := hi.1
  have h2 := hi.2.1
  dsimp only at h1 h2
  rw [initReport_total] at h1
  rw [initReport_successes, initReport_errors] at h2
  simp only [processLinks]
  omega

/-- Witness for C4 at a concrete single-URL run where everything
succeeds. -/
theorem report_totals_witness :
    (processLinks (fun _ => envOk) ["https://example.com/"] []).1.total =
      (["https://example.com/"] : List String).length ∧
    (processLinks (fun _ => envOk) ["https://example.com/"] []).1.successes +
        (processLinks (fun _ => envOk) ["https://example.com/"] []).1.errors =
      (processLinks (fun _ => envOk) ["https://example.com/"] []).1.total :=
  report_totals (fun _ => envOk) ["https://example.com/"] [] (by decide)

/-- C5: for every non-empty URL list the details sequence has exactly one
entry per input URL, in input order: its length equals the list's length,
projecting the `url` field recovers the input list itself, and at every
index the entry's `url` equals the input URL at that index. -/
theorem report_order (env : String → UrlEnv) (urls : List String) (fs : FS)
    (_h : urls ≠ []) :
    (processLinks env urls fs).1.details.length = urls.length ∧
    (processLinks env urls fs).1.details.map Detail.url = urls ∧
    ∀ i : ℕ,
      ((processLinks env urls fs).1.details.get? i).map Detail.url =
        urls.get? i := by
  have hd := runLoop_details env urls (initReport urls, fs, 0)
  have hmap : (processLinks env urls fs).1.details.map Detail.url = urls := by
    simp only [processLinks]
    rw [hd]
    simp only [initReport, List.nil_append, List.map_map]
    have hcomp : ∀ u, (Detail.url ∘ fun v => detailOf (env v) v) u = u :=
      fun u => detailOf_url (env u) u
    rw [funext hcomp, List.map_id']
  refine ⟨?_, hmap, ?_⟩
  · have := congrArg List.length hmap
    simpa using this
  · intro i
    conv_rhs => rw [← hmap]
    exact (List.get?_map Detail.url _ i).symm

/-- Witness for C5 at a concrete single-URL run: the first (and only)
entry carries the first input URL. -/
theorem report_order_witness :
    ((processLinks (fun _ => envOk) ["https://example.com/"] []).1.details.get?
        0).map Detail.url =
      (["https://example.com/"] : List String).get? 0 :=
  (report_order (fun _ => envOk) ["https://example.com/"] [] (by decide)).2.2 0

/-- C6: the file-name derivation computes, for every URL the platform
parser accepts, exactly the specification's function of hostname and
pathname (hostname concatenated with the trailing-slash-stripped,
sanitized pathname, with `"_index"` appended when the result is empty or
equals the bare hostname); it is deterministic, and on the two reference
URLs it yields `example.com_index` and `example.com_docs_page`. -/
theorem generateFileName_spec :
    (∀ s u, parseURL s = some u →
      generateFileName s = some (fileNameSpec u.hostname u.pathname)) ∧
    (∀ s, generateFileName s = generateFileName s) ∧
    generateFileName "https://example.com/" = some "example.com_index" ∧
    generateFileName "https://example.com/docs/page" =
      some "example.com_docs_page" := by
  refine ⟨?_, fun _ => rfl, by decide, by decide⟩
  intro s u h
  rw [generateFileName, h, fileNameSpec]

/-- Witness for C6 at `https://example.com/docs/page`, whose parse
produces hostname `example.com` and pathname `/docs/page`. -/
theorem generateFileName_spec_witness :
    generateFileName "https://example.com/docs/page" =
      some (fileNameSpec "example.com" "/docs/page") :=
  generateFileName_spec.1 "https://example.com/docs/page"
    ⟨"example.com", "/docs/page"⟩ (by decide)

/-- C7: every success entry records the compression string computed from
the clean and raw sizes; for a positive raw size that string is
`(1 - cleanSize / rawSize) * 100` rounded to one decimal place with a `%`
suffix, and for `rawSize = 35410`, `cleanSize = 3717` it is `"89.5%"`. -/
theorem compression_formula :
    (∀ env url okv, extractResult env url = Except.ok okv →
      detailOf env url =
        Detail.success url okv.fileName okv.clean.length okv.raw.length
          (compressionString okv.clean.length okv.raw.length)
          okv.rawPath okv.cleanPath) ∧
    (∀ c r : ℕ, 0 < r →
      compressionString c r =
        toFixed1 ((1 - (c : ℚ) / (r : ℚ)) * 100) ++ "%") ∧
    compressionString 3717 35410 = "89.5%" := by
  refine ⟨?_, ?_, ?_⟩
  · intro env url okv h
    unfold detailOf
    rw [h]
  · intro c r hr
    have hne : r ≠ 0 := Nat.pos_iff_ne_zero.mp hr
    simp [compressionString, jcompression, jdiv, jshift, jnumToFixed1, hne]
  · have h1 : jdiv 3717 35410 = JNum.fin ((3717 : ℚ) / 35410) := by
      norm_num [jdiv]
    have h2 : ((1 - (3717 : ℚ) / 35410) * 100) * 10 + 1 / 2 = 6342141 / 7082 := by
      norm_num
    have h3 : (⌊(6342141 / 7082 : ℚ)⌋ : ℤ) = 895 := by norm_num
    rw [compressionString, jcompression, h1, jshift, jnumToFixed1, toFixed1,
      h2, h3]
    decide

/-- Witness for C7: the success entry of a concrete successful URL records
the compression string of its sizes, and the concrete figure obeys the
rounding formula. -/
theorem compression_formula_witness :
    detailOf envOk "https://example.com/" =
      Detail.success "https://example.com/" "example.com_index"
        ("<h1>T</h1>" : String).length ("<h1>T</h1>" : String).length
        (compressionString ("<h1>T</h1>" : String).length
          ("<h1>T</h1>" : String).length)
        "output/raw/example.com_index.md" "output/clean/example.com_index.md" ∧
    compressionString 3717 35410 =
      toFixed1 ((1 - (3717 : ℚ) / (35410 : ℚ)) * 100) ++ "%" :=
  ⟨compression_formula.1 envOk "https://example.com/"
      ⟨"<h1>T</h1>", "<h1>T</h1>", "output/raw/example.com_index.md",
       "output/clean/example.com_index.md", "example.com_index"⟩ (by decide),
   compression_formula.2.1 3717 35410 (by decide)⟩

/-- C8: the compression computation has no guard against a zero raw size:
a successful extraction with empty raw markdown still produces a success
entry whose compression field is computed by the same division, and the
divided value is non-finite (`-Infinity` or `NaN`), never a finite
percentage. -/
theorem compression_zero_raw :
    (∀ env url okv, extractResult env url = Except.ok okv →
      okv.raw.length = 0 →
      detailOf env url =
        Detail.success url okv.fileName okv.clean.length 0
          (compressionString okv.clean.length 0)
          okv.rawPath okv.cleanPath) ∧
    (∀ c : ℕ, ∀ q : ℚ, jcompression c 0 ≠ JNum.fin q) := by
  refine ⟨?_, ?_⟩
  · intro env url okv h hz
    unfold detailOf
    rw [h]
    dsimp only
    rw [hz]
  · intro c q
    unfold jcompression jdiv jshift
    by_cases hc : c = 0 <;> simp [hc]

/-- Witness for C8 at a concrete behaviour with empty raw markdown and a
one-character clean result. -/
theorem compression_zero_raw_witness :
    detailOf envZeroRaw "https://example.com/" =
      Detail.success "https://example.com/" "example.com_index"
        ("c" : String).length 0 (compressionString ("c" : String).length 0)
        "output/raw/example.com_index.md" "output/clean/example.com_index.md" ∧
    jcompression 1 0 ≠ JNum.fin 0 :=
  ⟨compression_zero_raw.1 envZeroRaw "https://example.com/"
      ⟨"c", "", "output/raw/example.com_index.md",
       "output/clean/example.com_index.md", "example.com_index"⟩
      (by decide) rfl,
   compression_zero_raw.2 1 0⟩

/-- C9: the process exits non-zero exactly when the API credential is
missing (checked before the URL list is read) or the URL list is
missing/unparsable, not an array, or empty; every fatal abort writes no
report file, and every non-fatal run exits 0 and writes the report,
whatever the per-URL outcomes are. -/
theorem exit_code_spec (key : Option String) (input : LinksInput)
    (env : String → UrlEnv) (fs : FS) :
    ((mainRun key input env fs).exitCode ≠ 0 ↔
      key = none ∨ (∃ m, input = LinksInput.loadError m) ∨
      input = LinksInput.notArray ∨ input = LinksInput.array []) ∧
    ((mainRun key input env fs).exitCode ≠ 0 →
      (mainRun key input env fs).reportWritten = false) ∧
    ((mainRun key input env fs).exitCode = 0 →
      (mainRun key input env fs).reportWritten = true) := by
  cases key with
  | none => simp [mainRun]
  | some k =>
    cases input with
    | loadError m => simp [mainRun]
    | notArray => simp [mainRun]
    | array urls =>
      by_cases hu : urls = []
      · subst hu
        simp [mainRun]
      · have hl : urls.length ≠ 0 := by simpa [List.length_eq_zero] using hu
        simp [mainRun, hl, hu]

/-- Witness for C9: with a missing credential the run aborts without
writing a report; with a credential and a usable one-URL list it exits 0
and writes the report. -/
theorem exit_code_spec_witness :
    (mainRun none (LinksInput.array ["https://example.com/"])
        (fun _ => envOk) []).reportWritten = false ∧
    (mainRun (some "sk-test") (LinksInput.array ["https://example.com/"])
        (fun _ => envOk) []).reportWritten = true :=
  ⟨(exit_code_spec none (LinksInput.array ["https://example.com/"])
      (fun _ => envOk) []).2.1 (by decide),
   (exit_code_spec (some "sk-test") (LinksInput.array ["https://example.com/"])
      (fun _ => envOk) []).2.2 (by decide)⟩

theorem isPrefixOf_append (l m : List Char) : l.isPrefixOf (l ++ m) = true := by
  simp [List.isPrefixOf_iff_prefix]

/-- C10: the file-name derivation is partial over arbitrary strings — on
the non-URL input `"not a url"` the URL constructor throws (modelled as
`none`) instead of returning a name — and for every accepted URL the
hostname portion is carried verbatim into the result (the sanitizer
touches only the pathname), so the produced name always starts with the
unsanitized hostname, dots included. -/
theorem generateFileName_domain :
    generateFileName "not a url" = none ∧
    (∀ s u fn, parseURL s = some u → generateFileName s = some fn →
      u.hostname.data.isPrefixOf fn.data = true) := by
  refine ⟨by decide, ?_⟩
  intro s u fn hp hg
  rw [generateFileName, hp] at hg
  simp only [Option.some.injEq] at hg
  subst hg
  split
  · rw [String.data_append, String.data_append, List.append_assoc]
    exact isPrefixOf_append _ _
  · rw [String.data_append]
    exact isPrefixOf_append _ _

/-- Witness for C10 at `https://example.com/`: the produced name
`example.com_index` starts with the verbatim hostname `example.com`. -/
theorem generateFileName_domain_witness :
    ("example.com" : String).data.isPrefixOf
      ("example.com_index" : String).data = true :=
  generateFileName_domain.2 "https://example.com/" ⟨"example.com", "/"⟩
    "example.com_index" (by decide) (by decide)

end DocsExtractor
